import Mathlib

/-!
Verification of the dynamic operation dispatcher of `swaggerpy`
(`swaggerpy/client.py`): parameter binding, request synthesis, and the
`Resource` / `SwaggerClient` object graph.

The embedding is shallow: Python dicts become association lists over
`String` keys, Python values become the inductive `Val`, exceptions become
`Except` errors.  A returned `Request` is exactly the descriptor handed to
the transport collaborator (`http_client.fetch` or `websocket_connect`);
an `Except.error` result models an exception raised before any transport
call is attempted.
-/

/-- Python values as they occur as call-time arguments to
`Operation.__call__` and inside body payloads.  `vnone` is Python `None`;
`vlist` carries a list of strings (the only list shape the code's
`','.join(value)` accepts). -/
inductive Val where
  | vnone
  | vstr (s : String)
  | vint (n : Int)
  | vlist (elems : List String)
  | vdict (entries : List (String × Val))

/-- The `value is None` test used by `Operation.__call__`. -/
def Val.isNone : Val → Bool
  | .vnone => true
  | _ => false

/-- Python dict lookup on an association list (`d.get(k)` without default). -/
def lookupKey {α : Type} : List (String × α) → String → Option α
  | [], _ => none
  | kv :: rest, k => if kv.1 = k then some kv.2 else lookupKey rest k

/-- Python `del d[k]` (dicts have unique keys, so removing every pair with
that key is faithful). -/
def eraseKey {α : Type} : List (String × α) → String → List (String × α)
  | [], _ => []
  | kv :: rest, k => if kv.1 = k then eraseKey rest k else kv :: eraseKey rest k

/-- Python `d[k] = v`: replace the value in place if the key exists,
otherwise append the new pair (insertion order preserved). -/
def dictInsert {α : Type} (d : List (String × α)) (k : String) (v : α) :
    List (String × α) :=
  if d.any (fun kv => kv.1 = k) then
    d.map (fun kv => if kv.1 = k then (k, v) else kv)
  else
    d ++ [(k, v)]

/-- Python `d.update(m)`: insert every pair of `m` into `d`, later keys
overwriting earlier ones on conflict. -/
def dictUpdate (d m : List (String × Val)) : List (String × Val) :=
  m.foldl (fun acc kv => dictInsert acc kv.1 kv.2) d

/-- Python 2 `repr` of a string (single-quoted). -/
def pyReprStr (s : String) : String :=
  "\x27" ++ s ++ "\x27"

/-- Python 2 `repr` of a list of strings, e.g. `['a', 'b']`; this is the
shape of `kwargs.keys()` rendered by `{1!r:s}` in the unexpected-parameter
message. -/
def pyReprStrList (xs : List String) : String :=
  "[" ++ String.intercalate ", " (xs.map pyReprStr) ++ "]"

mutual

/-- Python 2 `repr` of a `Val`.  (Python 2 dicts iterate in an arbitrary
order; the model fixes insertion order.) -/
def pyRepr : Val → String
  | .vnone => "None"
  | .vstr s => pyReprStr s
  | .vint n => toString n
  | .vlist xs => pyReprStrList xs
  | .vdict m => "\x7b" ++ pyReprEntries m ++ "\x7d"

/-- Rendering of the comma-separated `repr` entries of a dict. -/
def pyReprEntries : List (String × Val) → String
  | [] => ""
  | [(k, v)] => pyReprStr k ++ ": " ++ pyRepr v
  | (k, v) :: rest => pyReprStr k ++ ": " ++ pyRepr v ++ ", " ++ pyReprEntries rest

end

/-- Python 2 `str()` of a `Val` (a string renders as itself, everything
else as its `repr`). -/
def pyStr : Val → String
  | .vstr s => s
  | v => pyRepr v

mutual

/-- Serialization `json.dumps` of a `Val` with Python 2's default separators
(`', '` and `': '`). -/
def jsonVal : Val → String
  | .vnone => "null"
  | .vstr s => "\"" ++ s ++ "\""
  | .vint n => toString n
  | .vlist xs => "[" ++ String.intercalate ", " (xs.map (fun s => "\"" ++ s ++ "\"")) ++ "]"
  | .vdict m => "\x7b" ++ jsonEntries m ++ "\x7d"

/-- Serialization of the comma-separated `json.dumps` entries of a dict. -/
def jsonEntries : List (String × Val) → String
  | [] => ""
  | [(k, v)] => "\"" ++ k ++ "\": " ++ jsonVal v
  | (k, v) :: rest => "\"" ++ k ++ "\": " ++ jsonVal v ++ ", " ++ jsonEntries rest

end

/-- Serialization `json.dumps` of a dict payload. -/
def jsonDumps (m : List (String × Val)) : String :=
  jsonVal (.vdict m)

/-- Characters `urllib.quote` never encodes (Python 2 `always_safe`:
ASCII letters, digits, `_`, `.`, `-`). -/
def alwaysSafeChar (c : Char) : Bool :=
  let n := c.toNat
  (65 ≤ n && n ≤ 90) || (97 ≤ n && n ≤ 122) || (48 ≤ n && n ≤ 57) ||
    n == 95 || n == 46 || n == 45

/-- Upper-case hex digit, as produced by `'%%%02X' % ord(c)`. -/
def hexUpper (n : Nat) : Char :=
  Char.ofNat (if n < 10 then 48 + n else 55 + n)

/-- One character of `urllib.quote` output. -/
def quoteChar (c : Char) : String :=
  if alwaysSafeChar c then String.singleton c
  else "%" ++ String.singleton (hexUpper (c.toNat / 16)) ++
    String.singleton (hexUpper (c.toNat % 16))

/-- Python 2 `urllib.quote_plus(s)` with the default empty `safe` set.
`urllib` first quotes with `' '` kept safe and then replaces each space
with `+`, which is the same as mapping spaces to `+` and quoting every
other character. -/
def quotePlus (s : String) : String :=
  String.join (s.toList.map (fun c => if c = ' ' then "+" else quoteChar c))

/-- Python 2 `urllib.urlencode` over the query dict: `k=v` pairs joined by
`&`, keys and stringified values passed through `quote_plus`.  The dict is
modelled in insertion order. -/
def urlencode (params : List (String × Val)) : String :=
  String.intercalate "&"
    (params.map (fun kv => quotePlus kv.1 ++ "=" ++ quotePlus (pyStr kv.2)))

/-- Python `str.replace` (all non-overlapping occurrences, left to right),
on character lists with a fuel bound.  Every step consumes at least one
source character when the pattern is non-empty, so fuel equal to the
source length is exact; the code only substitutes non-empty `{name}`
patterns. -/
def replaceFuel (pat rep : List Char) : Nat → List Char → List Char
  | _, [] => []
  | 0, l => l
  | fuel + 1, c :: rest =>
    if pat.isPrefixOf (c :: rest) then
      rep ++ replaceFuel pat rep fuel ((c :: rest).drop pat.length)
    else
      c :: replaceFuel pat rep fuel rest

/-- Python `s.replace(pat, rep)`. -/
def strReplace (s pat rep : String) : String :=
  ⟨replaceFuel pat.toList rep.toList s.toList.length s.toList⟩

/-- One entry of an operation's `parameters` list. -/
structure Param where
  name : String
  paramType : String
  required : Bool
deriving DecidableEq

/-- The operation's JSON metadata (`self.json` of an `Operation`):
`nickname`, `httpMethod`, `parameters`, and the `is_websocket` flag set by
the external `WebsocketProcessor`. -/
structure OperationJson where
  nickname : String
  httpMethod : String
  parameters : List Param
  is_websocket : Bool

/-- Runtime `Operation`: resolved base URI plus its JSON metadata (the
HTTP-client handle is opaque to this core and omitted). -/
structure Operation where
  uri : String
  json : OperationJson

/-- The mutable locals of `Operation.__call__` as it walks the parameter
list: the URI being substituted into, the query dict `params`, the body
dict `data`, and the remaining `kwargs`. -/
structure BindState where
  uri : String
  params : List (String × Val)
  data : Option (List (String × Val))
  kwargs : List (String × Val)

/-- The exceptions `Operation.__call__` raises before any transport call,
one constructor per raise site. -/
inductive CallErr where
  | missingParameter (pname nick : String)
  | typeMismatch
  | unsupportedParamType (ptype : String)
  | unexpectedParameters (nick : String) (names : List String)
  | notImplemented
deriving DecidableEq

/-- The message string each raise site formats. -/
def CallErr.message : CallErr → String
  | .missingParameter p nick =>
      "Missing required parameter \"" ++ p ++ "\" for \"" ++ nick ++ "\""
  | .typeMismatch => "Parameters of type \"body\" require dict input"
  | .unsupportedParamType t => "Unsupported paramType " ++ t
  | .unexpectedParameters nick names =>
      "\"" ++ nick ++ "\" does not have parameters " ++ pyReprStrList names
  | .notImplemented => "Sending body data with websockets not implmented"

/-- The Python exception class of each raise site. -/
def CallErr.pyExcKind : CallErr → String
  | .missingParameter _ _ => "TypeError"
  | .typeMismatch => "TypeError"
  | .unsupportedParamType _ => "AssertionError"
  | .unexpectedParameters _ _ => "TypeError"
  | .notImplemented => "NotImplementedError"

/-- Lookup `kwargs.get(pname)`: Python returns `None` both when the key is absent
and when the stored value is `None`. -/
def pyGet (kwargs : List (String × Val)) (k : String) : Val :=
  (lookupKey kwargs k).getD .vnone

/-- The step `if isinstance(value, list): value = ','.join(value)`. -/
def joinIfList : Val → Val
  | .vlist xs => .vstr (String.intercalate "," xs)
  | v => v

/-- The effective value `Operation.__call__` sees for parameter `n`:
`kwargs.get(n)` with list values comma-joined. -/
def effVal (kwargs : List (String × Val)) (n : String) : Val :=
  joinIfList (pyGet kwargs n)

/-- The body-merge step `data.update(value)` / `data = value`.  `if data:`
is false for `None` and for an empty dict, in which case `data` is rebound
to the new mapping; otherwise the new mapping is merged in, later keys
winning. -/
def mergeBody (data : Option (List (String × Val))) (m : List (String × Val)) :
    List (String × Val) :=
  match data with
  | some d => if d.isEmpty then m else dictUpdate d m
  | none => m

/-- Processing of one declared parameter whose effective value is not
`None`: the `paramType` dispatch of `Operation.__call__` followed by
`del kwargs[pname]`. -/
def bindValue (st : BindState) (p : Param) (value : Val) :
    Except CallErr BindState :=
  if p.paramType = "path" then
    .ok { st with
      uri := strReplace st.uri ("\x7b" ++ p.name ++ "\x7d") (quotePlus (pyStr value)),
      kwargs := eraseKey st.kwargs p.name }
  else if p.paramType = "query" then
    .ok { st with
      params := dictInsert st.params p.name value,
      kwargs := eraseKey st.kwargs p.name }
  else if p.paramType = "body" then
    match value with
    | .vdict m =>
        .ok { st with
          data := some (mergeBody st.data m),
          kwargs := eraseKey st.kwargs p.name }
    | _ => .error .typeMismatch
  else
    .error (.unsupportedParamType p.paramType)

/-- One iteration of the `for param in self.json.get('parameters', [])`
loop: a non-`None` value is dispatched on `paramType` and consumed, a
`None` value on a required parameter raises, a `None` value on an optional
parameter is skipped (and in particular never consumed). -/
def bindOne (nick : String) (st : BindState) (p : Param) :
    Except CallErr BindState :=
  let value := effVal st.kwargs p.name
  if value.isNone then
    if p.required then .error (.missingParameter p.name nick)
    else .ok st
  else
    bindValue st p value

/-- The whole parameter loop. -/
def bindLoop (nick : String) : List Param → BindState → Except CallErr BindState
  | [], st => .ok st
  | p :: ps, st =>
    match bindOne nick st p with
    | .error e => .error e
    | .ok st' => bindLoop nick ps st'

/-- The value of the `data` local after the `if data: data = json.dumps(data)`
step: still `None`, still an (empty) dict, or a serialized JSON string. -/
inductive DataVal where
  | noneV
  | dictV (m : List (String × Val))
  | strV (s : String)

/-- Python truthiness of the post-serialization `data` local, as tested by
`if data:` in the websocket branch. -/
def dataTruthy : DataVal → Bool
  | .noneV => false
  | .dictV m => !m.isEmpty
  | .strV s => !(s = "")

/-- The descriptor handed to the transport collaborator: either an
`http_client.fetch(url, method, body, headers)` call or a
`websocket_connect` on the given URL. -/
inductive Request where
  | fetch (method url : String) (body : DataVal)
      (headers : Option (List (String × String)))
  | connect (url : String)

/-- The URL a request descriptor carries. -/
def Request.url : Request → String
  | .fetch _ u _ _ => u
  | .connect u => u

/-- Python `s.startswith(pre)`. -/
def strStartsWith (s pre : String) : Bool :=
  pre.toList.isPrefixOf s.toList

/-- The first `n` characters of `s` removed. -/
def strDrop (s : String) (n : Nat) : String :=
  ⟨s.toList.drop n⟩

/-- The substitution `re.sub('^http', 'ws', uri)`: rewrite a leading `http` to `ws`. -/
def wsFixup (uri : String) : String :=
  if strStartsWith uri "http" then "ws" ++ strDrop uri 4 else uri

/-- Invocation `Operation.__call__`: bind the parameters, reject leftover kwargs,
serialize the body, build `url = uri + '?' + urlencode(params)`, then
either open a websocket connection or issue a fetch.  Note that the
websocket branch rebinds the local `uri` to `re.sub('^http', 'ws', uri)`
but then builds the connection request from `url`, which was computed from
the original `uri`; the rewrite is a dead store, mirrored here by the
unused `_wsUri`. -/
def Operation.call (op : Operation) (kwargs : List (String × Val)) :
    Except CallErr Request :=
  match bindLoop op.json.nickname op.json.parameters
      ⟨op.uri, [], none, kwargs⟩ with
  | .error e => .error e
  | .ok st =>
    if st.kwargs.isEmpty then
      let data : DataVal :=
        match st.data with
        | none => .noneV
        | some m => if m.isEmpty then .dictV m else .strV (jsonDumps m)
      let headers : Option (List (String × String)) :=
        match st.data with
        | none => none
        | some m =>
          if m.isEmpty then none
          else some [("Content-type", "application/json"),
                     ("Accept", "application/json")]
      let url := st.uri ++ "?" ++ urlencode st.params
      if op.json.is_websocket then
        let _wsUri := wsFixup st.uri
        if dataTruthy data then .error .notImplemented
        else .ok (.connect url)
      else
        .ok (.fetch op.json.httpMethod url data headers)
    else
      .error (.unexpectedParameters op.json.nickname (st.kwargs.map Prod.fst))

/-- One entry of an API declaration's `apis` list: a path and its
operations. -/
structure ApiJson where
  path : String
  operations : List OperationJson

/-- An API declaration: `basePath` plus the `apis` list. -/
structure DeclJson where
  basePath : String
  apis : List ApiJson

/-- One entry of the resource listing's `apis` list, after the loader's
enrichment has attached `name` and the resolved `api_declaration`. -/
structure ResourceJson where
  name : String
  api_declaration : DeclJson

/-- Building a Python dict by successive assignment, as a dict
comprehension does: later pairs with the same key silently overwrite
earlier ones. -/
def pyDictOf {α : Type} (l : List (String × α)) : List (String × α) :=
  l.foldl (fun d kv => dictInsert d kv.1 kv.2) []

/-- Builder `Resource._build_operation`: the operation's URI is the declaration's
`basePath` concatenated with the API entry's `path`. -/
def buildOperation (decl : DeclJson) (api : ApiJson) (oper : OperationJson) :
    Operation :=
  ⟨decl.basePath ++ api.path, oper⟩

/-- Runtime `Resource`: its JSON and the nickname-keyed operation dict. -/
structure Resource where
  json : ResourceJson
  operations : List (String × Operation)

/-- Construction `Resource.__init__`: one operation per descriptor, keyed by nickname
via a dict comprehension over all apis and their operations. -/
def Resource.ofJson (resource : ResourceJson) : Resource :=
  let decl := resource.api_declaration
  ⟨resource,
    pyDictOf (List.flatten (decl.apis.map (fun api =>
      api.operations.map (fun oper =>
        (oper.nickname, buildOperation decl api oper)))))⟩

/-- Accessor `Resource.get_name`: the `name` the loader's enrichment attached. -/
def Resource.get_name (r : Resource) : String :=
  r.json.name

/-- Lookup `Resource.get_operation`: name-based lookup, `None` when absent. -/
def Resource.get_operation (r : Resource) (name : String) : Option Operation :=
  lookupKey r.operations name

/-- Fallback `Resource.__getattr__`: attribute-style promotion of operations; an
unknown name raises `AttributeError` with the formatted message. -/
def Resource.attrOperation (r : Resource) (item : String) :
    Except String Operation :=
  match r.get_operation item with
  | some op => .ok op
  | none =>
      .error ("Resource \"" ++ r.get_name ++ "\" has no operation \"" ++
        item ++ "\"")

/-- The loaded resource listing (`api_docs`): `basePath` plus the enriched
resource entries. -/
structure ApiDocs where
  basePath : String
  apis : List ResourceJson

/-- Runtime `SwaggerClient` after a successful `__init__`. -/
structure SwaggerClient where
  api_docs : ApiDocs
  resources : List (String × Resource)

/-- The resource-building step of `SwaggerClient.__init__`: one `Resource`
per entry of `api_docs['apis']`, keyed by name via a dict comprehension. -/
def SwaggerClient.ofDocs (docs : ApiDocs) : SwaggerClient :=
  ⟨docs, pyDictOf (docs.apis.map (fun r => (r.name, Resource.ofJson r)))⟩

/-- Lookup `SwaggerClient.get_resource`: name-based lookup, `None` when absent. -/
def SwaggerClient.get_resource (c : SwaggerClient) (name : String) :
    Option Resource :=
  lookupKey c.resources name

/-- Fallback `SwaggerClient.__getattr__`: attribute-style promotion of resources;
an unknown name raises `AttributeError` with the formatted message. -/
def SwaggerClient.attrResource (c : SwaggerClient) (item : String) :
    Except String Resource :=
  match c.get_resource item with
  | some r => .ok r
  | none => .error ("API has no resource \"" ++ item ++ "\"")

/-! ### Helper lemmas about the binder -/

lemma Val.isNone_eq_false {v : Val} (h : v ≠ .vnone) : v.isNone = false := by
  cases v with
  | vnone => exact absurd rfl h
  | vstr s => rfl
  | vint n => rfl
  | vlist xs => rfl
  | vdict m => rfl

lemma lookupKey_eraseKey_ne {α : Type} (k n : String) (h : n ≠ k)
    (d : List (String × α)) : lookupKey (eraseKey d k) n = lookupKey d n := by
  induction d with
  | nil => rfl
  | cons kv rest ih =>
    by_cases hk : kv.1 = k
    · have hkn : ¬ kv.1 = n := by rw [hk]; exact fun he => h he.symm
      simp only [eraseKey, if_pos hk, lookupKey, if_neg hkn, ih]
    · simp only [eraseKey, if_neg hk, lookupKey, ih]

lemma effVal_eraseKey_ne (kw : List (String × Val)) (k n : String)
    (h : n ≠ k) : effVal (eraseKey kw k) n = effVal kw n := by
  unfold effVal pyGet
  rw [lookupKey_eraseKey_ne k n h]

lemma lookupKey_mem_keys {α : Type} {d : List (String × α)} {k : String}
    {v : α} (h : lookupKey d k = some v) : k ∈ d.map Prod.fst := by
  induction d with
  | nil => simp [lookupKey] at h
  | cons kv rest ih =>
    by_cases hk : kv.1 = k
    · simp [hk]
    · simp only [lookupKey, if_neg hk] at h
      simp [ih h]

lemma bindValue_ok_kwargs {st : BindState} {p : Param} {v : Val}
    {st' : BindState} (h : bindValue st p v = .ok st') :
    st'.kwargs = eraseKey st.kwargs p.name := by
  by_cases h1 : p.paramType = "path"
  · simp only [bindValue, if_pos h1, Except.ok.injEq] at h
    rw [← h]
  · by_cases h2 : p.paramType = "query"
    · simp only [bindValue, if_neg h1, if_pos h2, Except.ok.injEq] at h
      rw [← h]
    · by_cases h3 : p.paramType = "body"
      · simp only [bindValue, if_neg h1, if_neg h2, if_pos h3] at h
        cases v with
        | vdict m =>
          simp only [Except.ok.injEq] at h
          rw [← h]
        | vnone => simp at h
        | vstr s => simp at h
        | vint n => simp at h
        | vlist xs => simp at h
      · simp only [bindValue, if_neg h1, if_neg h2, if_neg h3] at h
        simp at h

lemma bindOne_ok_cases {nick : String} {st : BindState} {p : Param}
    {st' : BindState} (h : bindOne nick st p = .ok st') :
    (effVal st.kwargs p.name = .vnone ∧ p.required = false ∧ st' = st) ∨
    (effVal st.kwargs p.name ≠ .vnone ∧
      st'.kwargs = eraseKey st.kwargs p.name) := by
  by_cases hv : effVal st.kwargs p.name = .vnone
  · left
    simp only [bindOne, hv, Val.isNone, if_true] at h
    by_cases hr : p.required
    · simp [hr] at h
    · simp only [if_neg hr, Except.ok.injEq] at h
      exact ⟨hv, Bool.eq_false_iff.mpr hr, h.symm⟩
  · right
    simp only [bindOne, Val.isNone_eq_false hv, Bool.false_eq_true,
      if_false] at h
    exact ⟨hv, bindValue_ok_kwargs h⟩

lemma bindLoop_cons (nick : String) (p : Param) (ps : List Param)
    (st : BindState) :
    bindLoop nick (p :: ps) st =
      match bindOne nick st p with
      | .error e => .error e
      | .ok st' => bindLoop nick ps st' := rfl

lemma bindOne_preserves_vnone {nick : String} {st : BindState} {p : Param}
    {st' : BindState} {k : String}
    (hk : lookupKey st.kwargs k = some .vnone)
    (h : bindOne nick st p = .ok st') :
    lookupKey st'.kwargs k = some .vnone := by
  rcases bindOne_ok_cases h with ⟨_, _, rfl⟩ | ⟨hv, hkw⟩
  · exact hk
  · have hne : k ≠ p.name := by
      intro he
      apply hv
      unfold effVal pyGet
      rw [← he, hk]
      rfl
    rw [hkw, lookupKey_eraseKey_ne p.name k hne]
    exact hk

lemma bindLoop_preserves_vnone {nick : String} {k : String} :
    ∀ (l : List Param) (st st' : BindState),
      lookupKey st.kwargs k = some .vnone →
      bindLoop nick l st = .ok st' →
      lookupKey st'.kwargs k = some .vnone := by
  intro l
  induction l with
  | nil =>
    intro st st' hk h
    simp only [bindLoop, Except.ok.injEq] at h
    rw [← h]
    exact hk
  | cons p ps ih =>
    intro st st' hk h
    rw [bindLoop_cons] at h
    cases hb : bindOne nick st p with
    | error e => rw [hb] at h; exact absurd h (by simp)
    | ok st1 =>
      rw [hb] at h
      exact ih st1 st' (bindOne_preserves_vnone hk hb) h

lemma call_of_loop_error {op : Operation} {kwargs : List (String × Val)}
    {e : CallErr}
    (h : bindLoop op.json.nickname op.json.parameters
        ⟨op.uri, [], none, kwargs⟩ = .error e) :
    op.call kwargs = .error e := by
  unfold Operation.call
  rw [h]

lemma call_of_loop_leftover {op : Operation} {kwargs : List (String × Val)}
    {st : BindState}
    (h : bindLoop op.json.nickname op.json.parameters
        ⟨op.uri, [], none, kwargs⟩ = .ok st)
    (hne : st.kwargs ≠ []) :
    op.call kwargs =
      .error (.unexpectedParameters op.json.nickname
        (st.kwargs.map Prod.fst)) := by
  unfold Operation.call
  rw [h]
  have hf : st.kwargs.isEmpty = false := by
    cases hc : st.kwargs with
    | nil => exact absurd hc hne
    | cons a l => rfl
  simp only [hf, Bool.false_eq_true, if_false]

/-- The first required parameter whose effective value is `None` is the one
the loop reports, provided every parameter has a supported location and
every supplied body value is a dict (so no other raise can fire first).
Parameter names must be distinct so consuming one parameter cannot hide
another. -/
lemma bindLoop_missing (nick : String) :
    ∀ (l : List Param) (st : BindState),
      (∀ p ∈ l, p.paramType = "path" ∨ p.paramType = "query" ∨
        p.paramType = "body") →
      (∀ p ∈ l, p.paramType = "body" →
        effVal st.kwargs p.name = .vnone ∨
        ∃ m, effVal st.kwargs p.name = .vdict m) →
      (l.map Param.name).Nodup →
      (∃ p ∈ l, p.required = true ∧ effVal st.kwargs p.name = .vnone) →
      ∃ q ∈ l, q.required = true ∧ effVal st.kwargs q.name = .vnone ∧
        bindLoop nick l st = .error (.missingParameter q.name nick) := by
  intro l
  induction l with
  | nil =>
    intro st _ _ _ hex
    rcases hex with ⟨p, hp, _⟩
    exact absurd hp (List.not_mem_nil p)
  | cons p ps ih =>
    intro st htypes hbody hnodup hex
    have hndA : ∀ q ∈ ps, q.name ≠ p.name := by
      rw [List.map_cons, List.nodup_cons] at hnodup
      intro q hq he
      exact hnodup.1 (he ▸ List.mem_map_of_mem Param.name hq)
    have hndB : (ps.map Param.name).Nodup := by
      rw [List.map_cons, List.nodup_cons] at hnodup
      exact hnodup.2
    by_cases hv : effVal st.kwargs p.name = .vnone
    · by_cases hr : p.required = true
      · refine ⟨p, List.mem_cons_self p ps, hr, hv, ?_⟩
        rw [bindLoop_cons]
        have hb : bindOne nick st p =
            .error (.missingParameter p.name nick) := by
          simp only [bindOne, hv, Val.isNone, if_true, if_pos hr]
        rw [hb]
      · have hb : bindOne nick st p = .ok st := by
          simp only [bindOne, hv, Val.isNone, if_true, if_neg hr]
        rcases hex with ⟨w, hw, hwreq, hwnone⟩
        have hwps : w ∈ ps := by
          rcases List.mem_cons.mp hw with rfl | h'
          · exact absurd hwreq hr
          · exact h'
        rcases ih st
            (fun q hq => htypes q (List.mem_cons_of_mem _ hq))
            (fun q hq hb' => hbody q (List.mem_cons_of_mem _ hq) hb')
            hndB ⟨w, hwps, hwreq, hwnone⟩ with ⟨q, hq, h1, h2, h3⟩
        refine ⟨q, List.mem_cons_of_mem _ hq, h1, h2, ?_⟩
        rw [bindLoop_cons, hb]
        exact h3
    · have hne : (effVal st.kwargs p.name).isNone = false :=
        Val.isNone_eq_false hv
      have hbv : bindOne nick st p =
          bindValue st p (effVal st.kwargs p.name) := by
        simp only [bindOne, hne, Bool.false_eq_true, if_false]
      obtain ⟨st', hb⟩ : ∃ st',
          bindValue st p (effVal st.kwargs p.name) = .ok st' := by
        rcases htypes p (List.mem_cons_self p ps) with h1 | h1 | h1
        · exact ⟨{ st with
            uri := strReplace st.uri ("\x7b" ++ p.name ++ "\x7d")
              (quotePlus (pyStr (effVal st.kwargs p.name))),
            kwargs := eraseKey st.kwargs p.name },
            by simp only [bindValue, if_pos h1]⟩
        · have hp1 : ¬ p.paramType = "path" := by rw [h1]; decide
          exact ⟨{ st with
            params := dictInsert st.params p.name (effVal st.kwargs p.name),
            kwargs := eraseKey st.kwargs p.name },
            by simp only [bindValue, if_neg hp1, if_pos h1]⟩
        · rcases hbody p (List.mem_cons_self p ps) h1 with h2 | ⟨m, hm⟩
          · exact absurd h2 hv
          · have hp1 : ¬ p.paramType = "path" := by rw [h1]; decide
            have hp2 : ¬ p.paramType = "query" := by rw [h1]; decide
            exact ⟨{ st with
              data := some (mergeBody st.data m),
              kwargs := eraseKey st.kwargs p.name },
              by simp only [bindValue, if_neg hp1, if_neg hp2, if_pos h1,
                hm]⟩
      have hkw : st'.kwargs = eraseKey st.kwargs p.name :=
        bindValue_ok_kwargs hb
      have hbOne : bindOne nick st p = .ok st' := by rw [hbv]; exact hb
      have heff : ∀ n, n ≠ p.name →
          effVal st'.kwargs n = effVal st.kwargs n := by
        intro n hn
        rw [hkw]
        exact effVal_eraseKey_ne st.kwargs p.name n hn
      have hqname : ∀ q ∈ ps, q.name ≠ p.name := hndA
      rcases hex with ⟨w, hw, hwreq, hwnone⟩
      have hwps : w ∈ ps := by
        rcases List.mem_cons.mp hw with rfl | h'
        · exact absurd hwnone hv
        · exact h'
      rcases ih st'
          (fun q hq => htypes q (List.mem_cons_of_mem _ hq))
          (fun q hq hb' => by
            rw [heff q.name (hqname q hq)]
            exact hbody q (List.mem_cons_of_mem _ hq) hb')
          hndB
          ⟨w, hwps, hwreq, by
            rw [heff w.name (hqname w hwps)]
            exact hwnone⟩ with ⟨q, hq, h1, h2, h3⟩
      refine ⟨q, List.mem_cons_of_mem _ hq, h1, ?_, ?_⟩
      · rw [← heff q.name (hqname q hq)]
        exact h2
      · rw [bindLoop_cons, hbOne]
        exact h3

/-! ### Claims -/

/-- C1: for every operation descriptor and argument mapping, if a declared
required parameter is absent from the call-time arguments (equivalently:
its effective value is `None`), then — provided no other raise can fire
first, i.e. every parameter location is one of the three supported kinds,
every supplied body value is a mapping, and parameter names are distinct —
the invocation fails with the missing-required-parameter error
(`MissingParameterError`, a `TypeError` in the source), whose message names
the reported missing parameter and the operation's nickname.  The `.error`
result is returned instead of a `Request`, i.e. the failure precedes any
transport call. -/
theorem claim_C1 (op : Operation) (kwargs : List (String × Val)) (p : Param)
    (htypes : ∀ q ∈ op.json.parameters, q.paramType = "path" ∨
      q.paramType = "query" ∨ q.paramType = "body")
    (hbody : ∀ q ∈ op.json.parameters, q.paramType = "body" →
      effVal kwargs q.name = .vnone ∨ ∃ m, effVal kwargs q.name = .vdict m)
    (hnodup : (op.json.parameters.map Param.name).Nodup)
    (hp : p ∈ op.json.parameters) (hreq : p.required = true)
    (habs : effVal kwargs p.name = .vnone) :
    ∃ q ∈ op.json.parameters, q.required = true ∧
      effVal kwargs q.name = .vnone ∧
      op.call kwargs = .error (.missingParameter q.name op.json.nickname) ∧
      (CallErr.missingParameter q.name op.json.nickname).message =
        "Missing required parameter \"" ++ q.name ++ "\" for \"" ++
          op.json.nickname ++ "\"" := by
  rcases bindLoop_missing op.json.nickname op.json.parameters
      ⟨op.uri, [], none, kwargs⟩ htypes hbody hnodup
      ⟨p, hp, hreq, habs⟩ with ⟨q, hq, h1, h2, h3⟩
  exact ⟨q, hq, h1, h2, call_of_loop_error h3, rfl⟩

theorem claim_C1_witness :
    ∃ q ∈ [(⟨"id", "path", true⟩ : Param)], q.required = true ∧
      effVal [] q.name = Val.vnone ∧
      (Operation.mk "/things/\x7bid\x7d"
          ⟨"getThing", "GET", [⟨"id", "path", true⟩], false⟩).call [] =
        .error (.missingParameter q.name "getThing") ∧
      (CallErr.missingParameter q.name "getThing").message =
        "Missing required parameter \"" ++ q.name ++ "\" for \"" ++
          "getThing" ++ "\"" :=
  claim_C1 (Operation.mk "/things/\x7bid\x7d"
      ⟨"getThing", "GET", [⟨"id", "path", true⟩], false⟩) []
    ⟨"id", "path", true⟩
    (by decide)
    (fun q hq hb => Or.inl rfl)
    (by decide)
    (by decide) rfl rfl

/-- C2: if the parameter loop completes (binding succeeds) and call-time
arguments remain unconsumed, the invocation fails with
`UnexpectedParameterError` (a `TypeError` in the source) carrying the
operation's nickname and the leftover argument names, and its message
names both; the `.error` result means no transport call is attempted. -/
theorem claim_C2 (op : Operation) (kwargs : List (String × Val))
    (st : BindState)
    (hloop : bindLoop op.json.nickname op.json.parameters
        ⟨op.uri, [], none, kwargs⟩ = .ok st)
    (hleft : st.kwargs ≠ []) :
    op.call kwargs = .error (.unexpectedParameters op.json.nickname
      (st.kwargs.map Prod.fst)) ∧
    (CallErr.unexpectedParameters op.json.nickname
        (st.kwargs.map Prod.fst)).message =
      "\"" ++ op.json.nickname ++ "\" does not have parameters " ++
        pyReprStrList (st.kwargs.map Prod.fst) :=
  ⟨call_of_loop_leftover hloop hleft, rfl⟩

theorem claim_C2_witness :
    bindLoop "nop" [] ⟨"/x", [], none, [("y", .vint 1)]⟩ =
        .ok ⟨"/x", [], none, [("y", .vint 1)]⟩ ∧
    (Operation.mk "/x" ⟨"nop", "GET", [], false⟩).call [("y", .vint 1)] =
      .error (.unexpectedParameters "nop" ["y"]) :=
  ⟨rfl,
    (claim_C2 (Operation.mk "/x" ⟨"nop", "GET", [], false⟩)
      [("y", .vint 1)] ⟨"/x", [], none, [("y", .vint 1)]⟩ rfl
      (List.cons_ne_nil _ _)).1⟩

/-- C10: an argument explicitly supplied as `None` is treated as absent.
It can never be consumed, so (1) the invocation always fails with some
pre-transport error; (2) whenever binding succeeds the failure is the
unexpected-parameter error and the `None`-valued name is among the
reported leftovers; and (3) if the `None`-valued name belongs to a
declared required parameter (and no other raise can fire first), the
failure is the missing-required-parameter error.  Consequently a `None`
value is never transmitted as a path, query, or body parameter. -/
theorem claim_C10 (op : Operation) (kwargs : List (String × Val))
    (k : String) (hk : lookupKey kwargs k = some .vnone) :
    (∃ e, op.call kwargs = .error e) ∧
    (∀ st, bindLoop op.json.nickname op.json.parameters
        ⟨op.uri, [], none, kwargs⟩ = .ok st →
      op.call kwargs = .error (.unexpectedParameters op.json.nickname
        (st.kwargs.map Prod.fst)) ∧ k ∈ st.kwargs.map Prod.fst) ∧
    (∀ p ∈ op.json.parameters, p.required = true → p.name = k →
      (∀ q ∈ op.json.parameters, q.paramType = "path" ∨
        q.paramType = "query" ∨ q.paramType = "body") →
      (∀ q ∈ op.json.parameters, q.paramType = "body" →
        effVal kwargs q.name = .vnone ∨
          ∃ m, effVal kwargs q.name = .vdict m) →
      (op.json.parameters.map Param.name).Nodup →
      ∃ q ∈ op.json.parameters, q.required = true ∧
        op.call kwargs = .error
          (.missingParameter q.name op.json.nickname)) := by
  refine ⟨?_, ?_, ?_⟩
  · cases hb : bindLoop op.json.nickname op.json.parameters
        ⟨op.uri, [], none, kwargs⟩ with
    | error e => exact ⟨e, call_of_loop_error hb⟩
    | ok st =>
      have hpres := bindLoop_preserves_vnone op.json.parameters
          ⟨op.uri, [], none, kwargs⟩ st hk hb
      have hne : st.kwargs ≠ [] := by
        intro h0
        rw [h0] at hpres
        simp [lookupKey] at hpres
      exact ⟨_, call_of_loop_leftover hb hne⟩
  · intro st hb
    have hpres := bindLoop_preserves_vnone op.json.parameters
        ⟨op.uri, [], none, kwargs⟩ st hk hb
    have hne : st.kwargs ≠ [] := by
      intro h0
      rw [h0] at hpres
      simp [lookupKey] at hpres
    exact ⟨call_of_loop_leftover hb hne, lookupKey_mem_keys hpres⟩
  · intro p hp hreq hname htypes hbody hnodup
    have habs : effVal kwargs p.name = .vnone := by
      unfold effVal pyGet
      rw [hname, hk]
      rfl
    rcases bindLoop_missing op.json.nickname op.json.parameters
        ⟨op.uri, [], none, kwargs⟩ htypes hbody hnodup
        ⟨p, hp, hreq, habs⟩ with ⟨q, hq, h1, _, h3⟩
    exact ⟨q, hq, h1, call_of_loop_error h3⟩

theorem claim_C10_witness :
    lookupKey [("a", Val.vnone)] "a" = some Val.vnone ∧
    (∃ e, (Operation.mk "/x"
        ⟨"opn", "GET", [⟨"a", "query", false⟩], false⟩).call
      [("a", .vnone)] = .error e) :=
  ⟨rfl,
    (claim_C10 (Operation.mk "/x"
        ⟨"opn", "GET", [⟨"a", "query", false⟩], false⟩)
      [("a", .vnone)] "a" rfl).1⟩

/-- C3 (counterexample): a path parameter bound to the list
`["a", "b"]` is substituted as `a%2Cb` — the percent-encoded form of the
comma-join — not as the literal string `a,b` the claim states: the
resulting URL differs from the claimed one. -/
theorem claim_C3_counterexample :
    (Operation.mk "/t/\x7bx\x7d" ⟨"getT", "GET", [⟨"x", "path", false⟩],
        false⟩).call [("x", .vlist ["a", "b"])] =
      .ok (.fetch "GET" "/t/a%2Cb?" .noneV none) ∧
    ("/t/a%2Cb?" : String) ≠ "/t/a,b?" :=
  ⟨rfl, by decide⟩

/-- C3 (amended): a `path` parameter bound to `["a", "b"]` is first
comma-joined to `a,b` and then passed through `urllib.quote_plus`, so the
`\x7bname\x7d` placeholder is replaced with `quote_plus("a,b")`, which is
the percent-encoded string `a%2Cb`. -/
theorem claim_C3 (uri n nick method : String) (r : Bool) :
    (Operation.mk uri ⟨nick, method, [⟨n, "path", r⟩], false⟩).call
        [(n, .vlist ["a", "b"])] =
      .ok (.fetch method
        (strReplace uri ("\x7b" ++ n ++ "\x7d") (quotePlus "a,b") ++ "?" ++
          urlencode []) .noneV none) ∧
    quotePlus (String.intercalate "," ["a", "b"]) = "a%2Cb" := by
  have hj : String.intercalate "," ["a", "b"] = "a,b" := rfl
  refine ⟨?_, by rw [hj]; rfl⟩
  simp [Operation.call, bindLoop, bindOne, bindValue, effVal, pyGet,
    lookupKey, eraseKey, joinIfList, Val.isNone, pyStr, hj]

/-- C4: two `body` parameters with mappings `\x7ba:1\x7d` and
`\x7bb:2\x7d` merge into the single payload `\x7ba:1, b:2\x7d`; on a
shared key the later-declared parameter wins; the full invocation carries
the serialized merged payload with the JSON header pair; and a non-mapping
body value fails with `TypeMismatchError` (class `TypeError`) before any
transport call. -/
theorem claim_C4 (uri nick method : String) (n1 n2 : String)
    (r1 r2 ws : Bool) (h : n1 ≠ n2) :
    bindLoop nick [⟨n1, "body", r1⟩, ⟨n2, "body", r2⟩]
        ⟨uri, [], none, [(n1, .vdict [("a", .vint 1)]),
          (n2, .vdict [("b", .vint 2)])]⟩ =
      .ok ⟨uri, [], some [("a", .vint 1), ("b", .vint 2)], []⟩ ∧
    bindLoop nick [⟨n1, "body", r1⟩, ⟨n2, "body", r2⟩]
        ⟨uri, [], none, [(n1, .vdict [("k", .vint 1)]),
          (n2, .vdict [("k", .vint 2)])]⟩ =
      .ok ⟨uri, [], some [("k", .vint 2)], []⟩ ∧
    (Operation.mk uri ⟨nick, method,
        [⟨n1, "body", r1⟩, ⟨n2, "body", r2⟩], false⟩).call
        [(n1, .vdict [("a", .vint 1)]), (n2, .vdict [("b", .vint 2)])] =
      .ok (.fetch method (uri ++ "?" ++ urlencode [])
        (.strV (jsonDumps [("a", .vint 1), ("b", .vint 2)]))
        (some [("Content-type", "application/json"),
               ("Accept", "application/json")])) ∧
    (Operation.mk uri ⟨nick, method, [⟨n1, "body", r1⟩], ws⟩).call
        [(n1, .vint 7)] = .error .typeMismatch ∧
    CallErr.typeMismatch.pyExcKind = "TypeError" := by
  refine ⟨?_, ?_, ?_, ?_, rfl⟩ <;>
    simp [Operation.call, bindLoop, bindOne, bindValue, effVal, pyGet,
      lookupKey, eraseKey, joinIfList, Val.isNone, mergeBody, dictUpdate,
      dictInsert, h, Ne.symm h]

theorem claim_C4_witness :
    ("b1" : String) ≠ "b2" ∧
    bindLoop "mk" [⟨"b1", "body", true⟩, ⟨"b2", "body", true⟩]
        ⟨"/u", [], none, [("b1", .vdict [("a", .vint 1)]),
          ("b2", .vdict [("b", .vint 2)])]⟩ =
      .ok ⟨"/u", [], some [("a", .vint 1), ("b", .vint 2)], []⟩ :=
  ⟨by decide,
    (claim_C4 "/u" "mk" "POST" "b1" "b2" true true false (by decide)).1⟩

lemma jsonDumps_ne_empty (m : List (String × Val)) : jsonDumps m ≠ "" := by
  intro h
  have hl := congrArg String.length h
  simp only [jsonDumps, jsonVal, String.length_append] at hl
  have h1 : ("\x7b" : String).length = 1 := rfl
  have h2 : ("\x7d" : String).length = 1 := rfl
  have h3 : ("" : String).length = 0 := rfl
  rw [h1, h2, h3] at hl
  omega

/-- C5: for a websocket-marked operation, if binding succeeds with no
leftover arguments and a non-empty body payload, the invocation fails
synchronously with `UnsupportedOperationError` (`NotImplementedError`);
the `.error` result is returned instead of a `connect` request, so no
connection attempt is made. -/
theorem claim_C5 (op : Operation) (kwargs : List (String × Val))
    (st : BindState) (m : List (String × Val))
    (hws : op.json.is_websocket = true)
    (hloop : bindLoop op.json.nickname op.json.parameters
        ⟨op.uri, [], none, kwargs⟩ = .ok st)
    (hempty : st.kwargs = [])
    (hdata : st.data = some m) (hm : m ≠ []) :
    op.call kwargs = .error .notImplemented ∧
    CallErr.notImplemented.pyExcKind = "NotImplementedError" := by
  refine ⟨?_, rfl⟩
  have hie : st.kwargs.isEmpty = true := by rw [hempty]; rfl
  have hme : m.isEmpty = false := by
    cases hc : m with
    | nil => exact absurd hc hm
    | cons a l => rfl
  have htr : dataTruthy (.strV (jsonDumps m)) = true := by
    simp [dataTruthy, jsonDumps_ne_empty m]
  unfold Operation.call
  rw [hloop]
  simp only [hie, if_true, hdata, hme, Bool.false_eq_true, if_false, hws,
    htr]

theorem claim_C5_witness :
    (Operation.mk "http://x/e"
        ⟨"ev", "GET", [⟨"b", "body", true⟩], true⟩).json.is_websocket
        = true ∧
    bindLoop "ev" [⟨"b", "body", true⟩]
        ⟨"http://x/e", [], none, [("b", .vdict [("a", .vint 1)])]⟩ =
      .ok ⟨"http://x/e", [], some [("a", .vint 1)], []⟩ ∧
    (Operation.mk "http://x/e"
        ⟨"ev", "GET", [⟨"b", "body", true⟩], true⟩).call
        [("b", .vdict [("a", .vint 1)])] = .error .notImplemented :=
  ⟨rfl, rfl,
    (claim_C5 (Operation.mk "http://x/e"
        ⟨"ev", "GET", [⟨"b", "body", true⟩], true⟩)
      [("b", .vdict [("a", .vint 1)])]
      ⟨"http://x/e", [], some [("a", .vint 1)], []⟩
      [("a", .vint 1)] rfl rfl rfl rfl (List.cons_ne_nil _ _)).1⟩

/-- C6 (code bug): for a websocket operation the synthesized request is
indeed a `connect` descriptor, but the URL handed to the connection
attempt still carries the `http` scheme.  The source rebinds the local
`uri` to `re.sub('^http', 'ws', uri)` (its own comment says `Fix up
http: URLs`), yet builds the connection request from `url`, which was
computed from the original `uri` — the rewrite is a dead store.
`wsFixup` shows the value the rewrite produced and discarded. -/
theorem claim_C6_code_bug :
    (Operation.mk "http://x/api/events" ⟨"evts", "GET", [], true⟩).call [] =
      .ok (.connect "http://x/api/events?") ∧
    wsFixup "http://x/api/events" = "ws://x/api/events" ∧
    strStartsWith "http://x/api/events?" "ws" = false ∧
    strStartsWith "http://x/api/events?" "http" = true :=
  ⟨rfl, rfl, by decide, by decide⟩

/-- C7: whenever binding succeeds and the invocation returns a request,
that request's URL is exactly the substituted path, then `?`, then the
percent-encoded query string (present even when the query mapping is
empty); concretely, base path `http://x/api` with operation path
`/things/\x7bid\x7d` (combined by `Resource._build_operation`) and
argument `id=42` yields URL `http://x/api/things/42?`. -/
theorem claim_C7 (op : Operation) (kwargs : List (String × Val))
    (st : BindState) (req : Request)
    (hloop : bindLoop op.json.nickname op.json.parameters
        ⟨op.uri, [], none, kwargs⟩ = .ok st)
    (hreq : op.call kwargs = .ok req) :
    req.url = st.uri ++ "?" ++ urlencode st.params ∧
    (buildOperation ⟨"http://x/api", [⟨"/things/\x7bid\x7d",
        [⟨"getThing", "GET", [⟨"id", "path", true⟩], false⟩]⟩]⟩
      ⟨"/things/\x7bid\x7d",
        [⟨"getThing", "GET", [⟨"id", "path", true⟩], false⟩]⟩
      ⟨"getThing", "GET", [⟨"id", "path", true⟩], false⟩).call
        [("id", .vint 42)] =
      .ok (.fetch "GET" "http://x/api/things/42?" .noneV none) := by
  refine ⟨?_, rfl⟩
  unfold Operation.call at hreq
  rw [hloop] at hreq
  by_cases he : st.kwargs.isEmpty
  · simp only [he, if_true] at hreq
    by_cases hws : op.json.is_websocket
    · simp only [hws, if_true] at hreq
      by_cases hd : dataTruthy (match st.data with
        | none => .noneV
        | some m => if m.isEmpty then .dictV m else .strV (jsonDumps m))
      · rw [if_pos hd] at hreq
        exact absurd hreq (by simp)
      · rw [if_neg hd] at hreq
        have hr := (Except.ok.injEq _ _).mp hreq
        rw [← hr]
        rfl
    · simp only [hws, Bool.false_eq_true, if_false] at hreq
      have hr := (Except.ok.injEq _ _).mp hreq
      rw [← hr]
      rfl
  · simp only [he, Bool.false_eq_true, if_false] at hreq
    exact absurd hreq (by simp)

theorem claim_C7_witness :
    bindLoop "getThing" [⟨"id", "path", true⟩]
        ⟨"http://x/api/things/\x7bid\x7d", [], none, [("id", .vint 42)]⟩ =
      .ok ⟨"http://x/api/things/42", [], none, []⟩ ∧
    ("http://x/api/things/42?" : String) =
      "http://x/api/things/42" ++ "?" ++ urlencode [] :=
  ⟨rfl,
    (claim_C7 (Operation.mk "http://x/api/things/\x7bid\x7d"
        ⟨"getThing", "GET", [⟨"id", "path", true⟩], false⟩)
      [("id", .vint 42)] ⟨"http://x/api/things/42", [], none, []⟩
      (.fetch "GET" "http://x/api/things/42?" .noneV none)
      rfl rfl).1⟩

/-- C8: for any `Resource` and any `SwaggerClient`, looking up a name
absent from the operation/resource mapping returns `None` (the lookup
functions are total and never raise), while attribute-style access on the
same name raises `AttributeError` whose message carries the member name —
for a `Resource` together with the resource's own name, for the client
root together with the container designation `API`. -/
theorem claim_C8 (r : Resource) (c : SwaggerClient) (nm : String)
    (hr : lookupKey r.operations nm = none)
    (hc : lookupKey c.resources nm = none) :
    r.get_operation nm = none ∧
    r.attrOperation nm = .error ("Resource \"" ++ r.get_name ++
      "\" has no operation \"" ++ nm ++ "\"") ∧
    c.get_resource nm = none ∧
    c.attrResource nm = .error ("API has no resource \"" ++ nm ++ "\"") := by
  refine ⟨hr, ?_, hc, ?_⟩
  · unfold Resource.attrOperation Resource.get_operation
    rw [hr]
  · unfold SwaggerClient.attrResource SwaggerClient.get_resource
    rw [hc]

theorem claim_C8_witness :
    (Resource.ofJson ⟨"repos", ⟨"http://x", []⟩⟩).get_operation "zzz"
        = none ∧
    (Resource.ofJson ⟨"repos", ⟨"http://x", []⟩⟩).attrOperation "zzz" =
      .error "Resource \"repos\" has no operation \"zzz\"" ∧
    (SwaggerClient.ofDocs ⟨"http://x", []⟩).get_resource "zzz" = none ∧
    (SwaggerClient.ofDocs ⟨"http://x", []⟩).attrResource "zzz" =
      .error "API has no resource \"zzz\"" :=
  claim_C8 (Resource.ofJson ⟨"repos", ⟨"http://x", []⟩⟩)
    (SwaggerClient.ofDocs ⟨"http://x", []⟩) "zzz" rfl rfl

/-- C9: a declaration with two operation descriptors sharing a nickname
builds without error and the resource's operation dict holds exactly one
entry for that nickname, bound to the later-listed descriptor
(last-write-wins); a resource listing with two entries sharing a name
likewise yields exactly one resource, built from the later entry. -/
theorem claim_C9 (name bp ap base : String) (o1 o2 : OperationJson)
    (r1 r2 : ResourceJson) (h : o1.nickname = o2.nickname)
    (hr : r1.name = r2.name) :
    (Resource.ofJson ⟨name, ⟨bp, [⟨ap, [o1, o2]⟩]⟩⟩).operations =
      [(o2.nickname,
        buildOperation ⟨bp, [⟨ap, [o1, o2]⟩]⟩ ⟨ap, [o1, o2]⟩ o2)] ∧
    (Resource.ofJson ⟨name, ⟨bp, [⟨ap, [o1, o2]⟩]⟩⟩).operations.length
        = 1 ∧
    (SwaggerClient.ofDocs ⟨base, [r1, r2]⟩).resources =
      [(r2.name, Resource.ofJson r2)] ∧
    (SwaggerClient.ofDocs ⟨base, [r1, r2]⟩).resources.length = 1 := by
  refine ⟨?_, ?_, ?_, ?_⟩ <;>
    simp [Resource.ofJson, SwaggerClient.ofDocs, pyDictOf, dictInsert,
      buildOperation, h, hr]

theorem claim_C9_witness :
    (⟨"del", "GET", [], false⟩ : OperationJson).nickname =
      (⟨"del", "POST", [], false⟩ : OperationJson).nickname ∧
    (Resource.ofJson ⟨"r", ⟨"http://x", [⟨"/p",
        [⟨"del", "GET", [], false⟩, ⟨"del", "POST", [], false⟩]⟩]⟩⟩).operations =
      [("del", buildOperation
        ⟨"http://x", [⟨"/p", [⟨"del", "GET", [], false⟩,
          ⟨"del", "POST", [], false⟩]⟩]⟩
        ⟨"/p", [⟨"del", "GET", [], false⟩, ⟨"del", "POST", [], false⟩]⟩
        ⟨"del", "POST", [], false⟩)] :=
  ⟨rfl,
    (claim_C9 "r" "http://x" "/p" "http://y"
      ⟨"del", "GET", [], false⟩ ⟨"del", "POST", [], false⟩
      ⟨"ra", ⟨"http://x", []⟩⟩ ⟨"ra", ⟨"http://y", []⟩⟩
      rfl rfl).1⟩
